import Mathlib

/-!
Shallow embedding of the resilience layer of the voice-of-hadhramaut client:
the analytics telemetry queue (`AnalyticsSystem`), the request gateway
(`ApiManager`), the local persistence helpers (`LocalDataService`) and the
offline synchronization engine (`SyncService`).  Each definition mirrors one
source function; theorems settle the specification claims against them.

The source runs on a single-threaded cooperative scheduler: between two
suspension points (awaits) state updates are atomic.  Every async function is
therefore embedded as a state transformer whose environment records the
outcomes of the remote calls awaited inside it and the events recorded by
other tasks while it was suspended.
-/

namespace Analytics

/-- Telemetry event object pushed by `trackEvent`/`trackPageView`: the
`{type, category, action, label, data}` literal built before `addToQueue`. -/
structure QEvent where
  type : String
  category : String
  action : String
  label : Option String
  data : String
  deriving DecidableEq

/-- Analytics module state: `state.eventQueue`, the persisted queue copy under
`config.storageKey` (`none` when the key is absent), the `state.isFlushing`
guard, the `config.trackingEnabled` flag, and a log of the batches handed to
`ApiManager.request` by `flushQueue` (each entry is the `events` array of one
POST to `config.endpoints.track`, in dispatch order). -/
structure AState where
  eventQueue : List QEvent
  stored : Option (List QEvent)
  isFlushing : Bool
  trackingEnabled : Bool
  sent : List (List QEvent)
  deriving DecidableEq

/-- `config.maxQueueSize`. -/
def maxQueueSize : Nat := 100

/-- `saveQueue()`: writes `{events: state.eventQueue, timestamp}` under
`config.storageKey` (the timestamp is not read back by `loadQueue`, so only
the events list is modelled). -/
def saveQueue (s : AState) : AState :=
  { s with stored := some s.eventQueue }

/-- `clearQueueStorage()`: removes the `config.storageKey` entry. -/
def clearQueueStorage (s : AState) : AState :=
  { s with stored := none }

/-- `isCriticalEvent(event)`: action is one of `eventTypes.SUBMIT`,
`eventTypes.COMPLETE`, `eventTypes.ERROR`, or the category is
`eventCategories.ERROR`. -/
def isCriticalEvent (e : QEvent) : Bool :=
  (e.action == "submit" || e.action == "complete" || e.action == "error") ||
    e.category == "error"

/-- Outcome of the awaited `ApiManager.request` inside `flushQueue`:
the promise resolves with `response.success` true, resolves with it false,
or rejects (a delivery error thrown by the transport). -/
inductive FlushOutcome where
  | success
  | failure
  | thrown
  deriving DecidableEq

/-- Environment of one `flushQueue` run: the `navigator.onLine` value read at
the branch, the outcome of the awaited request, and the events other tasks
push through `addToQueue` while the flush is suspended on that await. -/
structure FlushEnv where
  online : Bool
  outcome : FlushOutcome
  arrivals : List QEvent
  deriving DecidableEq

/-- Effect of one `addToQueue(event)` call that runs while `state.isFlushing`
is true (i.e. during the flush's await): both nested `flushQueue()` calls hit
the `state.isFlushing` guard and return immediately, so the call reduces to
the push onto `state.eventQueue` followed by `saveQueue()`. -/
def recordDuringFlush (s : AState) (e : QEvent) : AState :=
  saveQueue { s with eventQueue := s.eventQueue ++ [e] }

/-- `flushQueue()`: guard on `state.isFlushing` / empty queue, set the guard,
snapshot `eventsToSend := [...state.eventQueue]`, clear the live queue, then
— when online — dispatch the batch and await; events recorded during the
await are appended by `recordDuringFlush`.  On a successful response the
persisted copy is cleared; on `response.success === false` the snapshot is
prepended back and re-persisted; on a thrown error the `catch` block only
calls `saveQueue()` (the snapshot is not restored).  When offline the branch
is synchronous: the snapshot is prepended back and re-persisted.  The
`finally` block clears the guard. -/
def flushQueue (env : FlushEnv) (s : AState) : AState :=
  if s.isFlushing || s.eventQueue.isEmpty then s
  else
    let s1 := { s with isFlushing := true }
    let eventsToSend := s1.eventQueue
    let s2 := { s1 with eventQueue := [] }
    let s3 :=
      if env.online then
        let sReq := { s2 with sent := s2.sent ++ [eventsToSend] }
        let sAwait := env.arrivals.foldl recordDuringFlush sReq
        match env.outcome with
        | .success => clearQueueStorage sAwait
        | .failure =>
            saveQueue { sAwait with eventQueue := eventsToSend ++ sAwait.eventQueue }
        | .thrown => saveQueue sAwait
      else
        saveQueue { s2 with eventQueue := eventsToSend ++ s2.eventQueue }
    { s3 with isFlushing := false }

/-- `addToQueue(event)`: return immediately when `config.trackingEnabled` is
false; flush when the queue has reached `config.maxQueueSize`; push the event;
`saveQueue()`; flush immediately for critical events.  The triggered
`flushQueue()` calls are not awaited in the source; they are modelled as
running to completion (their interleavings are carried by `env.arrivals`),
a choice the claims settled here are insensitive to: only the
`trackingEnabled` guard and the push/persist effect are at stake. -/
def addToQueue (env : FlushEnv) (e : QEvent) (s : AState) : AState :=
  if !s.trackingEnabled then s
  else
    let s1 := if maxQueueSize ≤ s.eventQueue.length then flushQueue env s else s
    let s2 := saveQueue { s1 with eventQueue := s1.eventQueue ++ [e] }
    if isCriticalEvent e then flushQueue env s2 else s2

/-- Tracking-relevant configuration mutated by `init()`. -/
structure TrackCfg where
  trackingEnabled : Bool
  respectDNT : Bool
  deriving DecidableEq

/-- Effect of `init()` on `config.trackingEnabled`: when tracking is enabled,
`config.respectDNT` is set and `navigator.doNotTrack === '1'`, tracking is
disabled and init returns. -/
def initTracking (doNotTrack : Bool) (cfg : TrackCfg) : TrackCfg :=
  if !cfg.trackingEnabled then cfg
  else if cfg.respectDNT && doNotTrack then { cfg with trackingEnabled := false }
  else cfg

/-- Events of the C1 scenario: A, B, C recorded before the failing flush, D
after it.  All four are non-critical so `addToQueue` reduces to push+persist. -/
def evA : QEvent := ⟨"event", "survey", "view", some "A", ""⟩

/-- Event B of the flush-failure scenario. -/
def evB : QEvent := ⟨"event", "survey", "view", some "B", ""⟩

/-- Event C of the flush-failure scenario. -/
def evC : QEvent := ⟨"event", "survey", "view", some "C", ""⟩

/-- Event D of the flush-failure scenario. -/
def evD : QEvent := ⟨"event", "survey", "view", some "D", ""⟩

/-- Initial analytics state: empty queue, nothing persisted, not flushing,
tracking enabled, nothing sent. -/
def init0 : AState := ⟨[], none, false, true, []⟩

/-- Environment for flushes with no interleaved arrivals while online. -/
def envQuiet : FlushEnv := ⟨true, .success, []⟩

/-- State after recording A, B, C through `addToQueue`. -/
def c1Recorded : AState :=
  addToQueue envQuiet evC (addToQueue envQuiet evB (addToQueue envQuiet evA init0))

/-- State after the failing flush: online, the transport throws, no events
arrive during the await. -/
def c1AfterThrow : AState := flushQueue ⟨true, .thrown, []⟩ c1Recorded

/-- State after recording D and flushing successfully. -/
def c1Final : AState :=
  flushQueue ⟨true, .success, []⟩ (addToQueue envQuiet evD c1AfterThrow)

end Analytics


namespace Store

/-- Untyped value as stored in the offline-data queue: `saveOfflineData` is
called once with a string `type` and once (from `syncOfflineData`) with an
array of items in the `type` position and `undefined` in the `data` position,
so the fields must range over dynamic values. -/
inductive JVal where
  | str : String → JVal
  | undefined : JVal
  | list : List JVal → JVal
  | obj : List (String × JVal) → JVal

/-- Property read `v.name` on a dynamic value: field lookup on an object,
`undefined` otherwise. -/
def JVal.get (name : String) : JVal → JVal
  | .obj fields =>
      match fields.lookup name with
      | some v => v
      | none => .undefined
  | _ => .undefined

/-- `saveOfflineData(type, data)`: reads the persisted queue, pushes
`{type, data, timestamp, id: Utils.generateId()}` and writes it back —
it appends, it never replaces. -/
def saveOfflineData (type data : JVal) (ts newId : String) (store : List JVal) :
    List JVal :=
  store ++ [.obj [("type", type), ("data", data), ("timestamp", .str ts), ("id", .str newId)]]

/-- `item.id` of a queued item when it is a string (all ids written by
`saveOfflineData` are). -/
def itemId (item : JVal) : Option String :=
  match item.get "id" with
  | .str s => some s
  | _ => none

/-- Per-item body of the `syncOfflineData` loop: items of the three known
kinds dispatch a remote call whose success is given by `ok`; items of any
other `type` only log a warning and fall through to `successfulSyncs.push`. -/
def itemSyncOk (ok : JVal → Bool) (item : JVal) : Bool :=
  match item.get "type" with
  | .str t =>
      if t == "survey_response" || t == "survey_creation" || t == "user_feedback" then
        ok item
      else true
  | _ => true

/-- `syncOfflineData()`: read the queue; replay each item, collecting
`successfulSyncs` ids and `failedSyncs` items; when any id succeeded, compute
`remainingData` and hand it to `LocalDataService.saveOfflineData` — which
takes `(type, data)` and appends a wrapper item `{type: remainingData,
data: undefined, ...}` to the still-intact persisted queue.  Failed items are
only counted and logged. -/
def syncOfflineData (ok : JVal → Bool) (ts newId : String) (store : List JVal) :
    List JVal :=
  if store.isEmpty then store
  else
    let successfulSyncs := (store.filter (itemSyncOk ok)).map itemId
    if successfulSyncs.isEmpty then store
    else
      let remainingData := store.filter (fun it => !(successfulSyncs.contains (itemId it)))
      saveOfflineData (.list remainingData) .undefined ts newId store

/-- Record stored per survey id by `saveUserResponse`: the object literal
`{responses, timestamp}` — the `synced` and `syncTime` fields are only ever
set on the in-memory copy inside `syncUserResponses`, so in the persisted
record they may be absent. -/
structure URRecord where
  responses : String
  timestamp : String
  synced : Option Bool
  syncTime : Option String
  deriving DecidableEq

/-- Key update on an insertion-ordered string-keyed object/map: overwrite in
place when the key exists, append otherwise (JS object and `Map` semantics). -/
def setKey {β : Type} (k : String) (v : β) (m : List (String × β)) :
    List (String × β) :=
  if m.any (fun p => p.1 == k) then
    m.map (fun p => if p.1 == k then (k, v) else p)
  else m ++ [(k, v)]

/-- `saveUserResponse(surveyId, responses)`: stores
`{responses, timestamp: new Date().toISOString()}` under the survey id —
note the literal carries no `synced` flag. -/
def saveUserResponse (surveyId responses now : String)
    (store : List (String × URRecord)) : List (String × URRecord) :=
  setKey surveyId ⟨responses, now, none, none⟩ store

/-- `syncUserResponses()`: read the response map once; for each record whose
`synced` flag is not true, dispatch `submitSurveyResponse` (success given by
`ok`); on success set `synced`/`syncTime` on the in-memory copy and persist
through `saveUserResponse(surveyId, response.responses)` — which writes the
flagless literal.  Returns the final store and the list of survey ids
dispatched (in order). -/
def syncUserResponses (ok : String → Bool) (now : String)
    (store : List (String × URRecord)) : List (String × URRecord) × List String :=
  store.foldl
    (fun acc entry =>
      if entry.2.synced = some true then acc
      else if ok entry.1 then
        (saveUserResponse entry.1 entry.2.responses now acc.1, acc.2 ++ [entry.1])
      else (acc.1, acc.2 ++ [entry.1]))
    (store, [])

/-- Offline-mutation payload of the C2 scenario. -/
def c2Payload : JVal := .obj [("surveyId", .str "s1"), ("responses", .str "answers")]

/-- The queued `survey_response` mutation as `saveOfflineData` stores it. -/
def c2Item : JVal :=
  .obj [("type", .str "survey_response"), ("data", c2Payload),
        ("timestamp", .str "t0"), ("id", .str "m1")]

/-- Offline queue holding the one mutation, written by `saveOfflineData`. -/
def c2Queue0 : List JVal := saveOfflineData (.str "survey_response") c2Payload "t0" "m1" []

/-- First sync run: the remote dispatch fails. -/
def c2Run1 : List JVal := syncOfflineData (fun _ => false) "t1" "g1" c2Queue0

/-- Second sync run: the remote dispatch succeeds. -/
def c2Run2 : List JVal := syncOfflineData (fun _ => true) "t2" "g2" c2Run1

/-- Local user-response store of the C3 scenario, written by
`saveUserResponse("s1", responses)`. -/
def c3Store0 : List (String × URRecord) := saveUserResponse "s1" "answers" "t0" []

/-- First reconcile run over the C3 store: submission succeeds. -/
def c3Run1 : List (String × URRecord) × List String :=
  syncUserResponses (fun _ => true) "t1" c3Store0

/-- Second reconcile run, starting from the store the first run persisted. -/
def c3Run2 : List (String × URRecord) × List String :=
  syncUserResponses (fun _ => true) "t2" c3Run1.1

end Store


namespace Sync

/-- Durable state the sync engine touches, all living in the persistent
store: the offline-mutation queue, the per-survey response records, and the
locally cached surveys/results snapshots. -/
structure Durable where
  offline : List Store.JVal
  userResponses : List (String × Store.URRecord)
  surveys : Option String
  results : Option String

/-- `SyncService` module state: the `isSyncing` mutual-exclusion flag, the
`lastSyncTime` timestamp, and the durable store. -/
structure SyncState where
  isSyncing : Bool
  lastSyncTime : Option Nat
  durable : Durable

/-- Environment of one `syncAllData()` run: connectivity, the per-item and
per-response dispatch outcomes, the results of the two refresh fetches
(`none` = the awaited call threw), and the timestamps/ids minted. -/
structure SyncEnv where
  online : Bool
  offlineOk : Store.JVal → Bool
  respOk : String → Bool
  fetchSurveys : Option String
  fetchResults : Option String
  ts : String
  genId : String
  now : Nat

/-- Offline items of the three kinds `syncOfflineData` dispatches remotely;
any other `type` falls to the default branch and performs no network call. -/
def isKnownKind (item : Store.JVal) : Bool :=
  match item.get "type" with
  | .str t => t == "survey_response" || t == "survey_creation" || t == "user_feedback"
  | _ => false

/-- `updateLocalData()`: fetch active surveys and save, then fetch recent
results and save; a throw is caught and logged, skipping the rest of the
`try` block.  Also returns the number of network dispatches issued
(`getActiveSurveys` always; `getRecentResults` only if the first succeeded). -/
def updateLocalData (env : SyncEnv) (d : Durable) : Durable × Nat :=
  match env.fetchSurveys with
  | none => (d, 1)
  | some sv =>
      let d1 := { d with surveys := some sv }
      match env.fetchResults with
      | none => (d1, 2)
      | some rs => ({ d1 with results := some rs }, 2)

/-- `syncAllData()`: return immediately when `isSyncing` or offline; else set
the guard, run the three phases in order, set `lastSyncTime`, and clear the
guard in the `finally` block.  The second component counts the network
dispatches the run issued (offline-queue replays, refresh fetches, response
resubmissions). -/
def syncAllData (env : SyncEnv) (s : SyncState) : SyncState × Nat :=
  if s.isSyncing then (s, 0)
  else if !env.online then (s, 0)
  else
    let s1 := { s with isSyncing := true }
    let d0 := s1.durable
    let off1 := Store.syncOfflineData env.offlineOk env.ts env.genId d0.offline
    let n1 := (d0.offline.filter isKnownKind).length
    let ud := updateLocalData env { d0 with offline := off1 }
    let sr := Store.syncUserResponses env.respOk env.ts ud.1.userResponses
    ({ isSyncing := false, lastSyncTime := some env.now,
       durable := { ud.1 with userResponses := sr.1 } },
     n1 + ud.2 + sr.2.length)

/-- `getSyncStatus()`: the in-progress flag, last sync time, offline-queue
length, and the count of response records whose `synced` flag is not true. -/
def getSyncStatus (s : SyncState) : Bool × Option Nat × Nat × Nat :=
  (s.isSyncing, s.lastSyncTime, s.durable.offline.length,
   (s.durable.userResponses.filter (fun p => !(p.2.synced.getD false))).length)

end Sync


namespace Api

/-- `config.cacheDuration`: 5 minutes in milliseconds. -/
def cacheDuration : Nat := 5 * 60 * 1000

/-- `config.retryAttempts`. -/
def retryAttempts : Nat := 3

/-- Options object handed to `request(endpoint, options)` — the fields the
cache/in-flight/auth logic reads. -/
structure ReqOptions where
  method : Option String
  noCache : Bool
  body : Option String
  headers : Option (List (String × String))
  deriving DecidableEq

/-- `generateCacheKey(endpoint, options)`:
`` `${endpoint}_${options.method}_${params}` `` where `params` is
`JSON.stringify(options.body)` when a body is present and `''` otherwise;
an absent method prints as the string `undefined`. -/
def generateCacheKey (endpoint : String) (opts : ReqOptions) : String :=
  endpoint ++ "_" ++ opts.method.getD "undefined" ++ "_" ++
    (match opts.body with
     | some b => "\"" ++ b ++ "\""
     | none => "")

/-- `isCacheable` as computed in `request`: the method is literally `'GET'`
and the caller did not pass `noCache`. -/
def isCacheable (opts : ReqOptions) : Bool :=
  opts.method == some "GET" && !opts.noCache

/-- Cache entry as stored by `request`: `{data, timestamp: Date.now()}`. -/
structure CacheEntry where
  data : String
  timestamp : Nat
  deriving DecidableEq

/-- `Map.get` on an insertion-ordered map with unique keys: the value of the
first (hence only) binding of the key. -/
def mapGet {β : Type} (k : String) : List (String × β) → Option β
  | [] => none
  | (k1, v) :: tl => if k1 == k then some v else mapGet k tl

/-- `Map.delete`: under the unique-keys invariant of a JS `Map`, removing the
key's entry is the same as filtering it out. -/
def mapDelete {β : Type} (k : String) (m : List (String × β)) : List (String × β) :=
  m.filter (fun p => !(p.1 == k))

/-- Result of the synchronous part of one `request()` call: an immediate
cache hit, attachment to the pending promise of an identical in-flight
request, or a fresh network dispatch registered under a new promise id. -/
inductive StartResult where
  | cached (v : String)
  | attached (id : Nat)
  | dispatched (id : Nat)
  deriving DecidableEq

/-- `ApiManager` module state: the response `cache`, the `pendingRequests`
map from cache key to the id of its shared promise, a fresh-id counter, and
the log of actual network dispatches `(promise id, cache key)` in order. -/
structure GwState where
  cache : List (String × CacheEntry)
  pending : List (String × Nat)
  nextId : Nat
  dispatched : List (Nat × Nat × String)
  deriving DecidableEq

/-- Tail of `request()` past the cache check: return the pending promise for
the key if one exists, otherwise build the request promise (one network
dispatch) and register it in `pendingRequests`. -/
def requestDispatch (now : Nat) (key : String) (s : GwState) : GwState × StartResult :=
  match mapGet key s.pending with
  | some id => (s, .attached id)
  | none =>
      let id := s.nextId
      ({ s with pending := Store.setKey key id s.pending, nextId := id + 1,
                dispatched := s.dispatched ++ [(id, now, key)] },
       .dispatched id)

/-- `request(endpoint, options)` up to promise registration: compute the
cache key; on a cacheable call consult the cache, returning a hit younger
than `cacheDuration` immediately and deleting a stale hit; then fall through
to the in-flight check and dispatch.  (Header construction is modelled
separately by `requestHeaders`; the retry loop inside the dispatched promise
by `fetchWithRetry`; the promise resolution by `settleRequest`.) -/
def request (now : Nat) (endpoint : String) (opts : ReqOptions) (s : GwState) :
    GwState × StartResult :=
  let cacheKey := generateCacheKey endpoint opts
  if isCacheable opts then
    match mapGet cacheKey s.cache with
    | some cached =>
        if now - cached.timestamp < cacheDuration then (s, .cached cached.data)
        else requestDispatch now cacheKey { s with cache := mapDelete cacheKey s.cache }
    | none => requestDispatch now cacheKey s
  else requestDispatch now cacheKey s

/-- Resolution of the request promise in `request()`: the `fetch` chain
either resolves (then `handleResponse` throws on a non-ok response, reaching
the `.catch`) or rejects.  On an ok response of a cacheable call the cache is
populated with `{data, timestamp: Date.now()}`; on every outcome the
in-flight entry for the key is deleted. -/
inductive SettleOutcome where
  | resolved (ok : Bool) (data : String)
  | netFailure
  deriving DecidableEq

/-- `settleRequest` applies the `.then`/`.catch` continuations of the promise
built in `request()` for the given endpoint/options to the gateway state. -/
def settleRequest (now : Nat) (endpoint : String) (opts : ReqOptions)
    (outcome : SettleOutcome) (s : GwState) : GwState :=
  let cacheKey := generateCacheKey endpoint opts
  let s1 :=
    match outcome with
    | .resolved true data =>
        if isCacheable opts then
          { s with cache := Store.setKey cacheKey ⟨data, now⟩ s.cache }
        else s
    | _ => s
  { s1 with pending := mapDelete cacheKey s1.pending }

/-- `setupCacheCleanup()` sweep body: delete every cache entry strictly older
than `cacheDuration` (runs on an hourly interval). -/
def cacheCleanup (now : Nat) (cache : List (String × CacheEntry)) :
    List (String × CacheEntry) :=
  cache.filter (fun p => !(cacheDuration < now - p.2.timestamp))

/-- Keys of the in-flight map are pairwise distinct — the JS `Map` invariant
the model maintains. -/
def PendingUnique (s : GwState) : Prop :=
  (s.pending.map Prod.fst).Nodup

/-- Parsed response body as `handleResponse` reads it: `data.message` and
`data.errors` may each be absent. -/
structure RespBody where
  message : Option String
  errors : Option (List (String × String))
  deriving DecidableEq

/-- Resolved `fetch` response: the `ok` flag, the HTTP status, and the parsed
body. -/
structure HttpResponse where
  ok : Bool
  status : Nat
  body : RespBody
  deriving DecidableEq

/-- Outcome of one `fetch` attempt inside `fetchWithRetry`: the promise
resolves with a response (of any status), or rejects (network failure, or the
per-attempt timeout fired `controller.abort()`). -/
inductive AttemptOutcome where
  | ok (r : HttpResponse)
  | err (e : String)

/-- The typed fault `handleResponse` raises on a non-2xx response:
`new ApiError(data.message || default, response.status, data.errors)`, whose
constructor defaults `errors` to `[]` when the argument is `undefined`. -/
structure ApiError where
  message : String
  status : Nat
  errors : List (String × String)
  deriving DecidableEq

/-- `handleResponse(response)`: parse the body, then throw an `ApiError`
carrying status, message and field errors when `response.ok` is false, else
return the body.  It runs outside the retry loop, so a resolved non-2xx
response is never retried. -/
def handleResponse (r : HttpResponse) : Except ApiError RespBody :=
  if !r.ok then
    .error ⟨r.body.message.getD "حدث خطأ في الخادم", r.status, r.body.errors.getD []⟩
  else .ok r.body

/-- Body of `fetchWithRetry(url, options, attempts)`: the `for` loop indexed
by `i` starting at the given value, structured here by the count of remaining
iterations (`remaining = attempts - i`, so `remaining = 1` is the last
attempt, the source's `i === attempts - 1`).  A resolved response returns at
once; a rejection on the last attempt rethrows; otherwise the loop waits
`delay(2^i * 1000)` milliseconds — collected in order in the second
component — and retries.  With `attempts = 0` the source's loop body never
runs and the function resolves `undefined`; that unreachable case (the
configured default is 3) is modelled by the empty-message error. -/
def fetchWithRetryGo (oracle : Nat → AttemptOutcome) :
    Nat → Nat → Except String HttpResponse × List Nat
  | _, 0 => (.error "", [])
  | i, remaining + 1 =>
      match oracle i with
      | .ok r => (.ok r, [])
      | .err e =>
          if remaining = 0 then (.error e, [])
          else
            let rest := fetchWithRetryGo oracle (i + 1) remaining
            (rest.1, 2 ^ i * 1000 :: rest.2)

/-- `fetchWithRetry(url, options, attempts)`: the loop started at `i = 0`. -/
def fetchWithRetry (oracle : Nat → AttemptOutcome) (attempts : Nat) :
    Except String HttpResponse × List Nat :=
  fetchWithRetryGo oracle 0 attempts

/-- `config.headers`. -/
def configHeaders : List (String × String) :=
  [("Content-Type", "application/json"), ("Accept", "application/json"),
   ("Accept-Language", "ar")]

/-- Headers of the request dispatched by `request()`.  The source builds
`requestOptions` as `{method..., headers: {...config.headers,
...options.headers}, timeout..., ...options}`: the trailing spread of
`options` overwrites the merged `headers` field with `options.headers`
verbatim whenever the caller passed one, so the base headers are
`config.headers` exactly when the caller passed none.  Then, when
`getAuthToken()` returns a token, `requestOptions.headers.Authorization =
`` `Bearer ${token}` `` upserts the credential. -/
def requestHeaders (token : Option String)
    (optHeaders : Option (List (String × String))) : List (String × String) :=
  let merged :=
    match optHeaders with
    | none => configHeaders
    | some hs => hs
  match token with
  | some t => Store.setKey "Authorization" ("Bearer " ++ t) merged
  | none => merged

/-- Network dispatch sites in the module: the gateway path through
`request()` (every ApiManager service call), and `healthCheck()`, which calls
`fetch` directly with the literal `{method: 'GET', timeout: 5000}`. -/
inductive DispatchSite where
  | gateway (optHeaders : Option (List (String × String)))
  | healthProbe

/-- Headers carried by each dispatch site given the stored auth token.
`healthCheck` passes no headers object at all and never reads the token. -/
def dispatchedHeaders (token : Option String) : DispatchSite → List (String × String)
  | .gateway optHeaders => requestHeaders token optHeaders
  | .healthProbe => []

end Api

/-- C1: record A, B, C; the flush's transport call throws; record D; the next
successful flush dispatches exactly `[D]`, not `[A, B, C, D]` — the `catch`
block of `flushQueue` only re-persists the (already cleared) live buffer and
never prepends the snapshot back, so the events of the failed batch are
dropped, contradicting the claim that no event is lost on a failed flush. -/
theorem flush_thrown_drops_snapshot :
    Analytics.c1AfterThrow.eventQueue = [] ∧
    Analytics.c1AfterThrow.stored = some [] ∧
    Analytics.c1Final.sent = [[Analytics.evA, Analytics.evB, Analytics.evC], [Analytics.evD]] :=
  ⟨rfl, rfl, rfl⟩

/-- C9: on every termination path of `flushQueue` — successful delivery,
rejected delivery (`response.success === false`), thrown transport error, the
offline branch, and the empty-queue early return — the `isFlushing` guard is
false when the flush completes, because the early return leaves it untouched
and the `finally` block clears it on every other path; a later flush attempt
is never permanently blocked. -/
theorem flush_guard_reset (env : Analytics.FlushEnv) (s : Analytics.AState)
    (h : s.isFlushing = false) :
    (Analytics.flushQueue env s).isFlushing = false := by
  unfold Analytics.flushQueue
  rw [h]
  simp only [Bool.false_or]
  split
  · exact h
  · rfl

/-- Witness for C9 at a concrete state and environment. -/
theorem flush_guard_reset_witness :
    (Analytics.flushQueue ⟨true, .thrown, []⟩
      ⟨[Analytics.evA], none, false, true, []⟩).isFlushing = false :=
  flush_guard_reset ⟨true, .thrown, []⟩ ⟨[Analytics.evA], none, false, true, []⟩ rfl

/-- C10: when tracking is disabled — in particular after `init()` observes
`navigator.doNotTrack === '1'` with `respectDNT` set and clears
`config.trackingEnabled` — every call routed through `addToQueue` returns the
state unchanged: the in-memory event queue, the persisted queue copy, the
flush guard and the dispatch log (so no network dispatch) are all untouched. -/
theorem tracking_disabled_noop :
    (∀ cfg : Analytics.TrackCfg, cfg.trackingEnabled = true → cfg.respectDNT = true →
       (Analytics.initTracking true cfg).trackingEnabled = false) ∧
    (∀ (env : Analytics.FlushEnv) (e : Analytics.QEvent) (s : Analytics.AState),
       s.trackingEnabled = false → Analytics.addToQueue env e s = s) := by
  constructor
  · intro cfg h1 h2
    simp [Analytics.initTracking, h1, h2]
  · intro env e s h
    simp [Analytics.addToQueue, h]

/-- Witness for C10: DNT init disables tracking; with tracking disabled,
`addToQueue` leaves a concrete state unchanged. -/
theorem tracking_disabled_noop_witness :
    (Analytics.initTracking true ⟨true, true⟩).trackingEnabled = false ∧
    Analytics.addToQueue Analytics.envQuiet Analytics.evA ⟨[], none, false, false, []⟩ =
      ⟨[], none, false, false, []⟩ :=
  ⟨tracking_disabled_noop.1 ⟨true, true⟩ rfl rfl,
   tracking_disabled_noop.2 Analytics.envQuiet Analytics.evA ⟨[], none, false, false, []⟩ rfl⟩
/-- C2: a `survey_response` offline mutation whose dispatch fails stays queued
(first conjunct, as the claim says), but after the next run in which its
dispatch succeeds it is still in the persisted queue: `syncOfflineData` calls
`LocalDataService.saveOfflineData(remainingData)`, whose signature is
`(type, data)` and which appends `{type: remainingData, data: undefined, ...}`
to the still-intact queue instead of replacing it, so successes are never
removed — contradicting the claim that the mutation is absent after the
second `syncAll()`. -/
theorem sync_success_left_in_queue :
    Store.c2Run1 = [Store.c2Item] ∧
    Store.c2Run2 =
      [Store.c2Item,
       .obj [("type", .list []), ("data", .undefined),
             ("timestamp", .str "t2"), ("id", .str "g2")]] :=
  ⟨rfl, rfl⟩

/-- C3: reconcile attempts submission for the unconfirmed record and never
deletes the local copy (both as the claim says), but the confirmation is not
persisted: `syncUserResponses` sets `synced` only on the in-memory copy and
then persists through `saveUserResponse(surveyId, response.responses)`, which
stores the flagless `{responses, timestamp}` literal — so the persisted
record still lacks the flag after a successful submission and the next sync
run resubmits the same survey id, contradicting the claim. -/
theorem sync_confirm_flag_not_persisted :
    Store.c3Run1.2 = ["s1"] ∧
    Store.c3Run1.1 = [("s1", ⟨"answers", "t1", none, none⟩)] ∧
    Store.c3Run2.2 = ["s1"] :=
  ⟨rfl, rfl, rfl⟩
/-- C8: `syncAllData()` invoked while a run is in progress returns the state
unchanged and issues zero network dispatches (so `getSyncStatus` is unchanged
and no follow-up run is queued), and a run that starts from Idle ends with
the guard cleared again — the Idle → Syncing → Idle state machine guarded by
the single `isSyncing` flag. -/
theorem syncAll_reentrant_noop :
    (∀ (env : Sync.SyncEnv) (s : Sync.SyncState), s.isSyncing = true →
       Sync.syncAllData env s = (s, 0) ∧
       Sync.getSyncStatus (Sync.syncAllData env s).1 = Sync.getSyncStatus s) ∧
    (∀ (env : Sync.SyncEnv) (s : Sync.SyncState), s.isSyncing = false →
       (Sync.syncAllData env s).1.isSyncing = false) := by
  constructor
  · intro env s h
    refine ⟨by simp [Sync.syncAllData, h], ?_⟩
    simp [Sync.syncAllData, h]
  · intro env s h
    unfold Sync.syncAllData
    rw [h]
    split
    · exact h
    · split
      · exact h
      · rfl

/-- Witness for C8: a concrete in-progress state is untouched with zero
dispatches, and a concrete idle state ends idle. -/
theorem syncAll_reentrant_noop_witness :
    (Sync.syncAllData ⟨true, fun _ => true, fun _ => true, some "sv", some "rs", "t", "g", 5⟩
        ⟨true, none, ⟨[], [], none, none⟩⟩ = (⟨true, none, ⟨[], [], none, none⟩⟩, 0)) ∧
    (Sync.syncAllData ⟨true, fun _ => true, fun _ => true, some "sv", some "rs", "t", "g", 5⟩
        ⟨false, none, ⟨[], [], none, none⟩⟩).1.isSyncing = false :=
  ⟨(syncAll_reentrant_noop.1 _ _ rfl).1, syncAll_reentrant_noop.2 _ _ rfl⟩

/-- Deleting a key from a string-keyed map removes every binding for it. -/
theorem mapGet_mapDelete {β : Type} (k : String) (m : List (String × β)) :
    Api.mapGet k (Api.mapDelete k m) = none := by
  induction m with
  | nil => rfl
  | cons hd tl ih =>
      obtain ⟨k1, v1⟩ := hd
      by_cases h : k1 = k
      · simpa [Api.mapDelete, List.filter_cons, h] using ih
      · have hb : (k1 == k) = false := beq_eq_false_iff_ne.mpr h
        simpa [Api.mapDelete, Api.mapGet, List.filter_cons, hb] using ih

/-- Filtering a map preserves distinctness of its keys. -/
theorem keys_nodup_filter {β : Type} (p : String × β → Bool) (m : List (String × β))
    (h : (m.map Prod.fst).Nodup) : ((m.filter p).map Prod.fst).Nodup :=
  h.sublist ((List.filter_sublist m).map Prod.fst)

/-- A key that `mapGet` misses is not among the keys. -/
theorem not_mem_keys_of_mapGet_none {β : Type} {k : String} {m : List (String × β)}
    (h : Api.mapGet k m = none) : k ∉ m.map Prod.fst := by
  induction m with
  | nil => simp
  | cons hd tl ih =>
      obtain ⟨k1, v1⟩ := hd
      by_cases hk : k1 = k
      · subst hk
        simp [Api.mapGet] at h
      · have hb : (k1 == k) = false := beq_eq_false_iff_ne.mpr hk
        simp only [Api.mapGet, hb, Bool.false_eq_true, if_false] at h
        simp only [List.map_cons, List.mem_cons, not_or]
        exact ⟨fun hkk => hk hkk.symm, ih h⟩

/-- A key that `mapGet` misses matches no entry. -/
theorem any_key_false_of_mapGet_none {β : Type} {k : String} {m : List (String × β)}
    (h : Api.mapGet k m = none) : m.any (fun p => p.1 == k) = false := by
  induction m with
  | nil => rfl
  | cons hd tl ih =>
      obtain ⟨k1, v1⟩ := hd
      by_cases hk : k1 = k
      · subst hk
        simp [Api.mapGet] at h
      · have hb : (k1 == k) = false := beq_eq_false_iff_ne.mpr hk
        simp only [Api.mapGet, hb, Bool.false_eq_true, if_false] at h
        simp [List.any_cons, hb, ih h]

/-- Setting a key absent from a map appends it, so distinct keys stay
distinct. -/
theorem keys_nodup_setKey_fresh {β : Type} {k : String} (v : β) {m : List (String × β)}
    (hm : (m.map Prod.fst).Nodup) (hk : Api.mapGet k m = none) :
    ((Store.setKey k v m).map Prod.fst).Nodup := by
  have hany := any_key_false_of_mapGet_none hk
  have hmem := not_mem_keys_of_mapGet_none hk
  have happ : (m.map Prod.fst ++ [k]).Nodup := by
    refine hm.append (List.nodup_singleton k) ?_
    intro a ha hb
    simp only [List.mem_singleton] at hb
    exact hmem (hb ▸ ha)
  simpa [Store.setKey, hany] using happ

/-- Looking up the overwritten key after the in-place branch of `setKey`
yields the new value. -/
theorem mapGet_map_replace {β : Type} (k : String) (v : β) (m : List (String × β)) :
    m.any (fun p => p.1 == k) = true →
    Api.mapGet k (m.map (fun p => if p.1 == k then (k, v) else p)) = some v := by
  induction m with
  | nil => intro hany; simp at hany
  | cons hd tl ih =>
      intro hany
      obtain ⟨k1, v1⟩ := hd
      by_cases hk : k1 = k
      · subst hk
        rw [List.map_cons, if_pos (beq_self_eq_true k1)]
        simp [Api.mapGet]
      · have hb : (k1 == k) = false := beq_eq_false_iff_ne.mpr hk
        have htl : tl.any (fun p => p.1 == k) = true := by
          simpa [List.any_cons, hb] using hany
        rw [List.map_cons, if_neg (by simp [hb])]
        simp only [Api.mapGet, hb, Bool.false_eq_true, if_false]
        exact ih htl

/-- Looking up a key past entries that all miss it reaches the appended
binding. -/
theorem mapGet_append_fresh {β : Type} (k : String) (v : β) (m : List (String × β)) :
    m.any (fun p => p.1 == k) = false →
    Api.mapGet k (m ++ [(k, v)]) = some v := by
  induction m with
  | nil => intro _; simp [Api.mapGet]
  | cons hd tl ih =>
      intro h
      obtain ⟨k1, v1⟩ := hd
      rw [List.any_cons, Bool.or_eq_false_iff] at h
      simp [Api.mapGet, h.1, ih h.2]

/-- `setKey` establishes its binding: the key looks up to the new value. -/
theorem mapGet_setKey_self {β : Type} (k : String) (v : β) (m : List (String × β)) :
    Api.mapGet k (Store.setKey k v m) = some v := by
  by_cases hany : m.any (fun p => p.1 == k) = true
  · simpa [Store.setKey, hany] using mapGet_map_replace k v m hany
  · have h' : m.any (fun p => p.1 == k) = false := by
      rwa [Bool.not_eq_true] at hany
    simpa [Store.setKey, h'] using mapGet_append_fresh k v m h'

/-- The tail of `request()` preserves distinctness of the in-flight keys: a
pending hit attaches without touching the map; a miss registers a key that
was absent. -/
theorem pendingUnique_requestDispatch (now : Nat) (key : String) (s : Api.GwState)
    (h : Api.PendingUnique s) : Api.PendingUnique (Api.requestDispatch now key s).1 := by
  unfold Api.requestDispatch
  split
  · exact h
  · next heq => exact keys_nodup_setKey_fresh _ h heq

/-- `request()` preserves distinctness of the in-flight keys on every path. -/
theorem pendingUnique_request (now : Nat) (ep : String) (opts : Api.ReqOptions)
    (s : Api.GwState) (h : Api.PendingUnique s) :
    Api.PendingUnique (Api.request now ep opts s).1 := by
  simp only [Api.request]
  split
  · split
    · split
      · exact h
      · exact pendingUnique_requestDispatch _ _ _ h
    · exact pendingUnique_requestDispatch _ _ _ h
  · exact pendingUnique_requestDispatch _ _ _ h

/-- Promise resolution preserves distinctness of the in-flight keys. -/
theorem pendingUnique_settle (now : Nat) (ep : String) (opts : Api.ReqOptions)
    (outcome : Api.SettleOutcome) (s : Api.GwState) (h : Api.PendingUnique s) :
    Api.PendingUnique (Api.settleRequest now ep opts outcome s) := by
  unfold Api.settleRequest
  cases outcome with
  | resolved ok data =>
      cases ok
      · exact keys_nodup_filter _ _ h
      · by_cases hc : Api.isCacheable opts = true
        · simp only [if_pos hc]
          exact keys_nodup_filter _ _ h
        · simp only [if_neg hc]
          exact keys_nodup_filter _ _ h
  | netFailure => exact keys_nodup_filter _ _ h

/-- Promise resolution always deletes the key's in-flight entry. -/
theorem settle_removes_pending (now : Nat) (ep : String) (opts : Api.ReqOptions)
    (outcome : Api.SettleOutcome) (s : Api.GwState) :
    Api.mapGet (Api.generateCacheKey ep opts)
      (Api.settleRequest now ep opts outcome s).pending = none :=
  mapGet_mapDelete _ _

/-- C4: at most one in-flight request exists per cache key — the keys of
`pendingRequests` stay pairwise distinct under `request()` and promise
resolution; a `request()` issued for a key that is already in flight (and has
no fresh cache entry) attaches to the existing promise id, leaving the
in-flight map and the dispatch log untouched, so exactly one network dispatch
serves all concurrent callers of the key and they share one result; and the
in-flight entry of the key is deleted when its promise resolves, on success
and on failure alike. -/
theorem inflight_single_per_key :
    (∀ (now : Nat) (ep : String) (opts : Api.ReqOptions) (s : Api.GwState) (id : Nat),
       Api.mapGet (Api.generateCacheKey ep opts) s.pending = some id →
       (∀ e, Api.mapGet (Api.generateCacheKey ep opts) s.cache = some e →
          Api.cacheDuration ≤ now - e.timestamp) →
       (Api.request now ep opts s).2 = .attached id ∧
       (Api.request now ep opts s).1.pending = s.pending ∧
       (Api.request now ep opts s).1.dispatched = s.dispatched) ∧
    (∀ (now : Nat) (ep : String) (opts : Api.ReqOptions) (s : Api.GwState),
       Api.PendingUnique s → Api.PendingUnique (Api.request now ep opts s).1) ∧
    (∀ (now : Nat) (ep : String) (opts : Api.ReqOptions) (outcome : Api.SettleOutcome)
       (s : Api.GwState), Api.PendingUnique s →
       Api.PendingUnique (Api.settleRequest now ep opts outcome s)) ∧
    (∀ (now : Nat) (ep : String) (opts : Api.ReqOptions) (outcome : Api.SettleOutcome)
       (s : Api.GwState),
       Api.mapGet (Api.generateCacheKey ep opts)
         (Api.settleRequest now ep opts outcome s).pending = none) := by
  refine ⟨?_, pendingUnique_request, pendingUnique_settle, settle_removes_pending⟩
  intro now ep opts s id hpend hcache
  have hdisp : ∀ t : Api.GwState, t.pending = s.pending →
      Api.requestDispatch now (Api.generateCacheKey ep opts) t = (t, .attached id) := by
    intro t ht
    unfold Api.requestDispatch
    rw [ht, hpend]
  by_cases hc : Api.isCacheable opts = true
  · cases hmc : Api.mapGet (Api.generateCacheKey ep opts) s.cache with
    | none =>
        have hr : Api.request now ep opts s = (s, .attached id) := by
          simp only [Api.request, if_pos hc, hmc]
          exact hdisp s rfl
        simp [hr]
    | some e =>
        have hnlt : ¬ (now - e.timestamp < Api.cacheDuration) :=
          Nat.not_lt.mpr (hcache e hmc)
        have hr : Api.request now ep opts s =
            ({ s with cache := Api.mapDelete (Api.generateCacheKey ep opts) s.cache },
             .attached id) := by
          simp only [Api.request, if_pos hc, hmc, if_neg hnlt]
          exact hdisp _ rfl
        simp [hr]
  · have hc' : Api.isCacheable opts = false := by rwa [Bool.not_eq_true] at hc
    have hr : Api.request now ep opts s = (s, .attached id) := by
      simp only [Api.request, hc', Bool.false_eq_true, if_false]
      exact hdisp s rfl
    simp [hr]

/-- Witness for C4 at a concrete in-flight state: the second caller attaches
to promise 7 with no new dispatch, key distinctness is preserved, and
resolution (here: a network failure) removes the in-flight entry. -/
theorem inflight_single_per_key_witness :
    (Api.request 0 "/surveys" ⟨some "GET", false, none, none⟩
        ⟨[], [("/surveys_GET_", 7)], 8, []⟩).2 = .attached 7 ∧
    Api.PendingUnique (Api.request 0 "/surveys" ⟨some "GET", false, none, none⟩
        ⟨[], [("/surveys_GET_", 7)], 8, []⟩).1 ∧
    Api.mapGet "/surveys_GET_"
      (Api.settleRequest 5 "/surveys" ⟨some "GET", false, none, none⟩ .netFailure
        ⟨[], [("/surveys_GET_", 7)], 8, []⟩).pending = none := by
  refine ⟨(inflight_single_per_key.1 0 "/surveys" ⟨some "GET", false, none, none⟩
            ⟨[], [("/surveys_GET_", 7)], 8, []⟩ 7 rfl ?_).1,
          inflight_single_per_key.2.1 0 "/surveys" ⟨some "GET", false, none, none⟩
            ⟨[], [("/surveys_GET_", 7)], 8, []⟩ ?_,
          inflight_single_per_key.2.2.2 5 "/surveys" ⟨some "GET", false, none, none⟩
            .netFailure ⟨[], [("/surveys_GET_", 7)], 8, []⟩⟩
  · intro e he
    simp [Api.mapGet] at he
  · simp [Api.PendingUnique]

/-- A value found in a filtered map passed the filter. -/
theorem mapGet_filter_prop {β : Type} (p : String × β → Bool) (k : String)
    (m : List (String × β)) (v : β) (h : Api.mapGet k (m.filter p) = some v) :
    ∃ k', p (k', v) = true := by
  induction m with
  | nil => simp [Api.mapGet] at h
  | cons hd tl ih =>
      obtain ⟨k1, v1⟩ := hd
      rw [List.filter_cons] at h
      by_cases hp : p (k1, v1) = true
      · rw [if_pos hp] at h
        by_cases hk : k1 = k
        · subst hk
          simp only [Api.mapGet, beq_self_eq_true, if_true, Option.some.injEq] at h
          exact ⟨k1, h ▸ hp⟩
        · have hb : (k1 == k) = false := beq_eq_false_iff_ne.mpr hk
          simp only [Api.mapGet, hb, Bool.false_eq_true, if_false] at h
          exact ih h
      · rw [if_neg hp] at h
        exact ih h

/-- The tail of `request()` never resolves from the cache. -/
theorem requestDispatch_not_cached (now : Nat) (key : String) (t : Api.GwState)
    (v : String) : (Api.requestDispatch now key t).2 ≠ .cached v := by
  unfold Api.requestDispatch
  split
  · simp
  · simp

/-- C5: a cacheable call finding a cache entry younger than `cacheDuration`
returns it with no state change and no network dispatch; conversely every
value served from the cache comes from an entry younger than `cacheDuration`
(a stale entry is never returned); a cacheable call finding a stale entry
evicts it and performs a fresh network dispatch; and the periodic sweep keeps
only entries aged at most `cacheDuration`. -/
theorem cache_freshness :
    (∀ (now : Nat) (ep : String) (opts : Api.ReqOptions) (s : Api.GwState)
       (e : Api.CacheEntry),
       Api.isCacheable opts = true →
       Api.mapGet (Api.generateCacheKey ep opts) s.cache = some e →
       now - e.timestamp < Api.cacheDuration →
       Api.request now ep opts s = (s, .cached e.data)) ∧
    (∀ (now : Nat) (ep : String) (opts : Api.ReqOptions) (s s' : Api.GwState)
       (v : String),
       Api.request now ep opts s = (s', .cached v) →
       s' = s ∧ ∃ e, Api.mapGet (Api.generateCacheKey ep opts) s.cache = some e ∧
         v = e.data ∧ now - e.timestamp < Api.cacheDuration) ∧
    (∀ (now : Nat) (ep : String) (opts : Api.ReqOptions) (s : Api.GwState)
       (e : Api.CacheEntry),
       Api.isCacheable opts = true →
       Api.mapGet (Api.generateCacheKey ep opts) s.cache = some e →
       Api.cacheDuration ≤ now - e.timestamp →
       Api.mapGet (Api.generateCacheKey ep opts) s.pending = none →
       Api.request now ep opts s =
         ({ cache := Api.mapDelete (Api.generateCacheKey ep opts) s.cache,
            pending := Store.setKey (Api.generateCacheKey ep opts) s.nextId s.pending,
            nextId := s.nextId + 1,
            dispatched := s.dispatched ++ [(s.nextId, now, Api.generateCacheKey ep opts)] },
          .dispatched s.nextId)) ∧
    (∀ (now : Nat) (cache : List (String × Api.CacheEntry)) (k : String)
       (e : Api.CacheEntry),
       Api.mapGet k (Api.cacheCleanup now cache) = some e →
       now - e.timestamp ≤ Api.cacheDuration) := by
  refine ⟨?_, ?_, ?_, ?_⟩
  · intro now ep opts s e h1 h2 h3
    simp only [Api.request, if_pos h1, h2, if_pos h3]
  · intro now ep opts s s' v hreq
    by_cases hc : Api.isCacheable opts = true
    · cases hmc : Api.mapGet (Api.generateCacheKey ep opts) s.cache with
      | none =>
          have heq : Api.request now ep opts s =
              Api.requestDispatch now (Api.generateCacheKey ep opts) s := by
            simp only [Api.request, if_pos hc, hmc]
          rw [heq] at hreq
          exact absurd (congrArg Prod.snd hreq) (requestDispatch_not_cached _ _ _ _)
      | some e =>
          by_cases hfresh : now - e.timestamp < Api.cacheDuration
          · have heq : Api.request now ep opts s = (s, .cached e.data) := by
              simp only [Api.request, if_pos hc, hmc, if_pos hfresh]
            rw [heq] at hreq
            injection hreq with h1 h2
            injection h2 with h3
            exact ⟨h1.symm, e, rfl, h3.symm, hfresh⟩
          · have heq : Api.request now ep opts s =
                Api.requestDispatch now (Api.generateCacheKey ep opts)
                  { s with cache := Api.mapDelete (Api.generateCacheKey ep opts) s.cache } := by
              simp only [Api.request, if_pos hc, hmc, if_neg hfresh]
            rw [heq] at hreq
            exact absurd (congrArg Prod.snd hreq) (requestDispatch_not_cached _ _ _ _)
    · have hc' : Api.isCacheable opts = false := by rwa [Bool.not_eq_true] at hc
      have heq : Api.request now ep opts s =
          Api.requestDispatch now (Api.generateCacheKey ep opts) s := by
        simp only [Api.request, hc', Bool.false_eq_true, if_false]
      rw [heq] at hreq
      exact absurd (congrArg Prod.snd hreq) (requestDispatch_not_cached _ _ _ _)
  · intro now ep opts s e h1 h2 h3 h4
    simp only [Api.request, if_pos h1, h2, if_neg (Nat.not_lt.mpr h3)]
    unfold Api.requestDispatch
    rw [show Api.mapGet (Api.generateCacheKey ep opts)
          ({ s with cache := Api.mapDelete (Api.generateCacheKey ep opts) s.cache } :
            Api.GwState).pending = none from h4]
  · intro now cache k e h
    obtain ⟨k', hk'⟩ := mapGet_filter_prop _ k cache e h
    simp only [Bool.not_eq_true'] at hk'
    exact Nat.not_lt.mp (by simpa using hk')

/-- Witness for C5: a fresh entry is served with no dispatch; a stale entry
is evicted and redispatched; the sweep keeps a young entry, whose age is
indeed within bound. -/
theorem cache_freshness_witness :
    Api.request 200 "/surveys" ⟨some "GET", false, none, none⟩
        ⟨[("/surveys_GET_", ⟨"data1", 100⟩)], [], 0, []⟩ =
      (⟨[("/surveys_GET_", ⟨"data1", 100⟩)], [], 0, []⟩, .cached "data1") ∧
    Api.request 400000 "/surveys" ⟨some "GET", false, none, none⟩
        ⟨[("/surveys_GET_", ⟨"data1", 100⟩)], [], 0, []⟩ =
      ({ cache := Api.mapDelete "/surveys_GET_" [("/surveys_GET_", ⟨"data1", 100⟩)],
         pending := Store.setKey "/surveys_GET_" 0 [],
         nextId := 1,
         dispatched := [(0, 400000, "/surveys_GET_")] },
       .dispatched 0) ∧
    (100 : Nat) - 50 ≤ Api.cacheDuration := by
  refine ⟨?_, ?_, ?_⟩
  · exact cache_freshness.1 200 "/surveys" ⟨some "GET", false, none, none⟩
      ⟨[("/surveys_GET_", ⟨"data1", 100⟩)], [], 0, []⟩ ⟨"data1", 100⟩ rfl rfl (by decide)
  · have h := cache_freshness.2.2.1 400000 "/surveys" ⟨some "GET", false, none, none⟩
      ⟨[("/surveys_GET_", ⟨"data1", 100⟩)], [], 0, []⟩ ⟨"data1", 100⟩ rfl rfl
      (by decide) rfl
    simpa using h
  · exact cache_freshness.2.2.2 100 [("k", ⟨"d", 50⟩)] "k" ⟨"d", 50⟩ rfl

/-- Unrolling one backoff wait from the front of the expected wait list. -/
theorem backoff_range_succ (i k : Nat) :
    (List.range (k + 1)).map (fun j => 2 ^ (i + j) * 1000) =
      2 ^ i * 1000 :: (List.range k).map (fun j => 2 ^ (i + 1 + j) * 1000) := by
  have hfun : ((fun j => 2 ^ (i + j) * 1000) ∘ Nat.succ) =
      (fun j => 2 ^ (i + 1 + j) * 1000) := by
    funext j
    simp only [Function.comp_apply]
    rw [show i + Nat.succ j = i + 1 + j from by omega]
  rw [List.range_succ_eq_map, List.map_cons, List.map_map, Nat.add_zero, hfun]

/-- A resolved attempt ends the retry loop at once: when the first `k`
attempts reject and attempt `k` resolves within the budget, the loop returns
that response after exactly the waits `2^i * 1000` of the failed attempts. -/
theorem fetchGo_success (oracle : Nat → Api.AttemptOutcome) (r : Api.HttpResponse) :
    ∀ (k i remaining : Nat), k < remaining →
      (∀ j, j < k → ∃ e, oracle (i + j) = .err e) →
      oracle (i + k) = .ok r →
      Api.fetchWithRetryGo oracle i remaining =
        (.ok r, (List.range k).map (fun j => 2 ^ (i + j) * 1000)) := by
  intro k
  induction k with
  | zero =>
      intro i remaining hlt hfail hok
      obtain ⟨rem, rfl⟩ : ∃ rem, remaining = rem + 1 := ⟨remaining - 1, by omega⟩
      rw [Nat.add_zero] at hok
      simp [Api.fetchWithRetryGo, hok]
  | succ k ih =>
      intro i remaining hlt hfail hok
      obtain ⟨rem, rfl⟩ : ∃ rem, remaining = rem + 1 := ⟨remaining - 1, by omega⟩
      obtain ⟨e, he⟩ := hfail 0 (Nat.succ_pos k)
      rw [Nat.add_zero] at he
      have hrem : ¬ (rem = 0) := by omega
      have ihh := ih (i + 1) rem (by omega)
        (fun j hj => by
          obtain ⟨e', he'⟩ := hfail (j + 1) (by omega)
          exact ⟨e', by rwa [show i + (j + 1) = i + 1 + j from by omega] at he'⟩)
        (by rwa [show i + (k + 1) = i + 1 + k from by omega] at hok)
      simp only [Api.fetchWithRetryGo, he, hrem, if_false, ihh]
      rw [backoff_range_succ]

/-- When every attempt in the budget rejects, the loop performs every backoff
wait and propagates exactly the final attempt's error. -/
theorem fetchGo_allfail (oracle : Nat → Api.AttemptOutcome) :
    ∀ (remaining i : Nat), 0 < remaining →
      (∀ j, j < remaining → ∃ e, oracle (i + j) = .err e) →
      ∃ e, oracle (i + (remaining - 1)) = .err e ∧
        Api.fetchWithRetryGo oracle i remaining =
          (.error e, (List.range (remaining - 1)).map (fun j => 2 ^ (i + j) * 1000)) := by
  intro remaining
  induction remaining with
  | zero => intro i hpos; omega
  | succ rem ih =>
      intro i hpos hfail
      obtain ⟨e0, he0⟩ := hfail 0 (Nat.succ_pos rem)
      rw [Nat.add_zero] at he0
      by_cases hrem : rem = 0
      · subst hrem
        refine ⟨e0, by simpa using he0, ?_⟩
        simp [Api.fetchWithRetryGo, he0]
      · obtain ⟨e, he, hgo⟩ := ih (i + 1) (by omega)
          (fun j hj => by
            obtain ⟨e', he'⟩ := hfail (j + 1) (by omega)
            exact ⟨e', by rwa [show i + (j + 1) = i + 1 + j from by omega] at he'⟩)
        refine ⟨e, ?_, ?_⟩
        · rwa [show i + (rem + 1 - 1) = i + 1 + (rem - 1) from by omega]
        · simp only [Api.fetchWithRetryGo, he0, hrem, if_false, hgo]
          obtain ⟨r', rfl⟩ : ∃ r', rem = r' + 1 := ⟨rem - 1, by omega⟩
          simp only [Nat.add_sub_cancel]
          rw [backoff_range_succ]

/-- C6: a transport-level failure (rejected fetch: network failure or fired
per-attempt abort) is retried within the attempt budget with a wait of
`2^attempt` seconds before each retry; a resolved response — of any HTTP
status — ends the loop at once with no further attempt, so a non-2xx
response is never retried and `handleResponse` surfaces it immediately as an
`ApiError` carrying status code, message and field errors; and when every
attempt fails only the final attempt's error propagates. -/
theorem retry_backoff_service_fault :
    (∀ (oracle : Nat → Api.AttemptOutcome) (n k : Nat) (r : Api.HttpResponse),
       k < n → (∀ j, j < k → ∃ e, oracle j = .err e) → oracle k = .ok r →
       Api.fetchWithRetry oracle n =
         (.ok r, (List.range k).map (fun j => 2 ^ j * 1000))) ∧
    (∀ (oracle : Nat → Api.AttemptOutcome) (n : Nat), 0 < n →
       (∀ j, j < n → ∃ e, oracle j = .err e) →
       ∃ e, oracle (n - 1) = .err e ∧
         Api.fetchWithRetry oracle n =
           (.error e, (List.range (n - 1)).map (fun j => 2 ^ j * 1000))) ∧
    (∀ r : Api.HttpResponse, r.ok = false →
       Api.handleResponse r =
         .error ⟨r.body.message.getD "حدث خطأ في الخادم", r.status, r.body.errors.getD []⟩) := by
  refine ⟨?_, ?_, ?_⟩
  · intro oracle n k r hk hfail hok
    have h := fetchGo_success oracle r k 0 n hk
      (fun j hj => by simpa using hfail j hj) (by simpa using hok)
    simpa [Api.fetchWithRetry] using h
  · intro oracle n hn hfail
    obtain ⟨e, he, hgo⟩ := fetchGo_allfail oracle n 0 hn
      (fun j hj => by simpa using hfail j hj)
    exact ⟨e, by simpa using he, by simpa [Api.fetchWithRetry] using hgo⟩
  · intro r h
    simp [Api.handleResponse, h]

/-- Witness for C6: with a transport that rejects twice then resolves, the
default three-attempt budget yields the response after waits of 1 s and 2 s;
a resolved 422 response surfaces as a typed fault with its message and field
errors. -/
theorem retry_backoff_service_fault_witness :
    Api.fetchWithRetry
        (fun i => if i < 2 then .err "net" else .ok ⟨true, 200, ⟨none, none⟩⟩) 3 =
      (.ok ⟨true, 200, ⟨none, none⟩⟩, [1000, 2000]) ∧
    Api.handleResponse ⟨false, 422, ⟨some "bad", some [("email", "invalid")]⟩⟩ =
      .error ⟨"bad", 422, [("email", "invalid")]⟩ := by
  constructor
  · have h := retry_backoff_service_fault.1
      (fun i => if i < 2 then .err "net" else .ok ⟨true, 200, ⟨none, none⟩⟩)
      3 2 ⟨true, 200, ⟨none, none⟩⟩ (by decide)
      (fun j hj => ⟨"net", by simp [hj]⟩) (by simp)
    simpa using h
  · exact retry_backoff_service_fault.2.2 ⟨false, 422, ⟨some "bad", some [("email", "invalid")]⟩⟩ rfl

/-- Counterexample to C7: with the bearer token `"tok"` held in storage, the
dispatch performed by `healthCheck()` carries no Authorization header at all
— it calls `fetch` directly with only `{method, timeout}` and never reads the
token — so it is false that every dispatched request carries the bearer
credential whenever a token is held. -/
theorem health_probe_no_auth :
    ¬ (∀ site : Api.DispatchSite, ∃ v,
        ("Authorization", v) ∈ Api.dispatchedHeaders (some "tok") site) := by
  intro h
  obtain ⟨v, hv⟩ := h .healthProbe
  simp [Api.dispatchedHeaders] at hv

/-- C7 (amended): every request dispatched through the gateway's `request()`
carries `Authorization: Bearer token` when a token is held in storage, and —
provided the caller's own options do not set an Authorization header, which
no caller in the repository does — carries none when no token is held; the
`healthCheck()` probe bypasses the gateway and never carries an Authorization
header, with or without a stored token. -/
theorem auth_header_amended :
    (∀ (t : String) (optHeaders : Option (List (String × String))),
       Api.mapGet "Authorization" (Api.requestHeaders (some t) optHeaders) =
         some ("Bearer " ++ t)) ∧
    (∀ optHeaders : Option (List (String × String)),
       (∀ hs, optHeaders = some hs → Api.mapGet "Authorization" hs = none) →
       Api.mapGet "Authorization" (Api.requestHeaders none optHeaders) = none) ∧
    (∀ token : Option String, Api.dispatchedHeaders token .healthProbe = []) := by
  refine ⟨?_, ?_, fun _ => rfl⟩
  · intro t optHeaders
    cases optHeaders with
    | none => exact mapGet_setKey_self _ _ _
    | some hs => exact mapGet_setKey_self _ _ _
  · intro optHeaders h
    cases optHeaders with
    | none => rfl
    | some hs => exact h hs rfl

/-- Witness for C7 (amended) at concrete inputs. -/
theorem auth_header_amended_witness :
    Api.mapGet "Authorization" (Api.requestHeaders (some "tok") none) =
      some ("Bearer " ++ "tok") ∧
    Api.mapGet "Authorization" (Api.requestHeaders none none) = none ∧
    Api.dispatchedHeaders (some "tok") .healthProbe = [] :=
  ⟨auth_header_amended.1 "tok" none,
   auth_header_amended.2.1 none (fun _ h => nomatch h),
   auth_header_amended.2.2 (some "tok")⟩
